import Mathlib

/-!
Shallow embedding of the `wrapper-gql-client` library (files `client.jsx`,
`utils.jsx`, `query.jsx`, `mutation.jsx`, `query-state.jsx`).

JavaScript objects that the code treats as string-keyed maps are embedded as
association lists `List (String × α)` with property-assignment semantics that
preserve insertion order (`setKey`).  JavaScript values that can appear as
state fields, header values or variables are embedded as `JSValue`; reading a
missing property yields `JSValue.undef`, matching JavaScript `undefined`.
Thrown exceptions are embedded with `Except JSError`.
-/

/-- A JavaScript value, as far as the claims need it: `undefined`, `null`,
booleans, (integer) numbers and strings. -/
inductive JSValue where
  | undef : JSValue
  | null : JSValue
  | bool : Bool → JSValue
  | num : Int → JSValue
  | str : String → JSValue
deriving DecidableEq, Repr

/-- JavaScript truthiness on the embedded values: `undefined`, `null`,
`false`, `0` and the empty string are falsy, everything else truthy. -/
def truthy : JSValue → Bool
  | JSValue.undef => false
  | JSValue.null => false
  | JSValue.bool b => b
  | JSValue.num n => n != 0
  | JSValue.str s => s ≠ ""

/-- A JavaScript exception. -/
inductive JSError where
  | referenceError : String → JSError
  | typeError : String → JSError
  | jsError : String → JSError
deriving DecidableEq, Repr

/-- JavaScript property assignment `obj[k] = v` on an object embedded as an
association list: if the key is present its value is updated in place
(insertion order kept), otherwise the pair is appended. -/
def setKey {α : Type} (l : List (String × α)) (k : String) (v : α) :
    List (String × α) :=
  if l.any (fun p => p.1 = k) then
    l.map (fun p => if p.1 = k then (k, v) else p)
  else
    l ++ [(k, v)]

/-- JavaScript property read `obj[k]`: the stored value, or `undefined` when
the key is absent. -/
def lookupJS (l : List (String × JSValue)) (k : String) : JSValue :=
  (l.find? (fun p => p.1 = k)).elim JSValue.undef (fun p => p.2)

/-- Underscore `_.omit(obj, k)`: the object without the property `k`. -/
def omitJS {α : Type} (l : List (String × α)) (k : String) :
    List (String × α) :=
  l.filter (fun p => p.1 ≠ k)

/-- Underscore `_.extend(destination, source)`: copies every property of
`source` into `destination` (source keys win), in iteration order.  The
JavaScript function mutates `destination`; here the mutated object is the
returned list. -/
def extendJS {α : Type} (dst src : List (String × α)) : List (String × α) :=
  src.foldl (fun d p => setKey d p.1 p.2) dst

/-- Whether a key is present in the embedded object (`key in obj`). -/
def hasKey {α : Type} (l : List (String × α)) (k : String) : Bool :=
  l.any (fun p => p.1 = k)

/-!
## The reactive state store (`query-state.jsx`, class `GQLQueryState`)

The store's mutable fields that the claims touch are `state`, `oldState` and
`subscribers`; they are carried in `StoreState` and each method becomes a
function from `StoreState` to `StoreState` (plus its JavaScript return value
and, for the `*Sync` variants, the list of subscriber notifications
performed).
-/

/-- A subscriber callback value: a JavaScript function value with its
`name` property (the empty string for an anonymous function) and an identity
tag distinguishing distinct function values that share a name. -/
structure FnVal where
  name : String
  tag : Nat
deriving DecidableEq, Repr

/-- An argument to `subscribe` / `unsubscribe`: either not a function at all,
or a function value. -/
inductive CallbackArg where
  | notFn : JSValue → CallbackArg
  | fn : FnVal → CallbackArg
deriving DecidableEq, Repr

/-- The mutable fields of a `GQLQueryState` instance used by the state
mutators and the subscription methods. -/
structure StoreState where
  state : List (String × JSValue)
  oldState : List (String × JSValue)
  subscribers : List FnVal
deriving DecidableEq, Repr

/-- One notification delivered to one subscriber: the callback value, the
copy of the current state it receives, and the `oldState` argument. -/
structure NotifyEvent where
  cb : FnVal
  newState : List (String × JSValue)
  oldState : List (String × JSValue)
deriving DecidableEq, Repr

/-- `__callSubscribers(oldState)` (query-state.jsx lines 299-307): when the
subscriber list is empty nothing happens; otherwise every subscriber is
called, in order, with a copy `_.extend(\x7b\x7d, this.state)` of the current
state and the given old state. -/
def callSubscribers (s : StoreState) (old : List (String × JSValue)) :
    List NotifyEvent :=
  if s.subscribers.length = 0 then []
  else s.subscribers.map (fun cb =>
    { cb := cb, newState := extendJS [] s.state, oldState := old })

/-- `unset(name)` (query-state.jsx lines 203-211): if `this.state[name]` is
falsy (absent, or present with a falsy value) the method returns at once;
otherwise it saves a copy of the state into `oldState` and replaces `state`
by `_.omit(this.state, name)`.  The method has no `return` statement with a
value, so its JavaScript return value is `undefined` on every path; that
value is the second component. -/
def storeUnset (s : StoreState) (name : String) : StoreState × JSValue :=
  if !(truthy (lookupJS s.state name)) then (s, JSValue.undef)
  else
    ({ s with
        oldState := extendJS [] s.state,
        state := omitJS s.state name },
      JSValue.undef)

/-- `unsetSync(name)` (query-state.jsx lines 220-226): calls `unset` and then
tests `if (!this.unset(name)) return;` on its return value before notifying
the subscribers with the saved `oldState`. -/
def storeUnsetSync (s : StoreState) (name : String) :
    StoreState × List NotifyEvent :=
  let r := storeUnset s name
  if !(truthy r.2) then (r.1, [])
  else (r.1, callSubscribers r.1 r.1.oldState)

/-- `subscribe(callback)` (query-state.jsx lines 260-274): returns `false`
for a non-function or anonymous-function argument; otherwise, if a subscriber
with the same function name already exists it returns (JavaScript
`undefined`) without pushing, and otherwise it appends the callback and
returns `true`.  The second component is the JavaScript return value. -/
def storeSubscribe (s : StoreState) (callback : CallbackArg) :
    StoreState × JSValue :=
  match callback with
  | CallbackArg.notFn _ => (s, JSValue.bool false)
  | CallbackArg.fn f =>
    if f.name = "" then (s, JSValue.bool false)
    else
      let exist := s.subscribers.filter (fun cb => cb.name = f.name)
      if !(exist.length = 0) then (s, JSValue.undef)
      else ({ s with subscribers := s.subscribers ++ [f] }, JSValue.bool true)

/-- `unsubscribe(callback)` (query-state.jsx lines 283-291): returns `false`
for a non-function or anonymous-function argument; otherwise it keeps exactly
the subscribers whose name differs from the callback's name and returns
`true`. -/
def storeUnsubscribe (s : StoreState) (callback : CallbackArg) :
    StoreState × JSValue :=
  match callback with
  | CallbackArg.notFn _ => (s, JSValue.bool false)
  | CallbackArg.fn f =>
    if f.name = "" then (s, JSValue.bool false)
    else
      ({ s with
          subscribers := s.subscribers.filter (fun cb => cb.name ≠ f.name) },
        JSValue.bool true)

/-- The number of active subscribers carrying a given function name. -/
def countNamed (subs : List FnVal) (n : String) : Nat :=
  (subs.filter (fun cb => cb.name = n)).length

/-!
## The query registry (`query.jsx`, class `GQLQuery`)

`this.queries` is a JavaScript array that can contain holes (`delete
this.queries[pos]` leaves one), so it is embedded as a
`List (Option QueryEntry)` with `none` for a hole.  `_.findIndex(array,
attrs)` with an attrs object never matches a hole (underscore `isMatch`
returns `false` for `undefined`), and `Array.prototype.map` skips holes.
-/

/-- The declaration of one query argument, `{type, value}`
(`query.jsx` documentation of `set`).  The claims below never evaluate a
callable default, so `value` is carried as a plain value. -/
structure ArgSpec where
  type : String
  value : JSValue
deriving DecidableEq, Repr

/-- One registered query entry `{name, query, args}` as stored by `set`
(query.jsx line 103). -/
structure QueryEntry where
  name : String
  query : String
  args : List (String × ArgSpec)
deriving DecidableEq, Repr

/-- Whether one array slot matches the matcher object `{name: n}` used by
`get`, `set` and `unset`: a hole (`undefined`) never matches, an entry
matches exactly when its `name` property equals `n`. -/
def matchName (slot : Option QueryEntry) (n : String) : Bool :=
  match slot with
  | none => false
  | some e => e.name = n

/-- The index of the first slot matching `{name: n}`, if any
(`_.findIndex(this.queries, {name: nameOrAlias})`, found form). -/
def findIdxA : List (Option QueryEntry) → String → Option Nat
  | [], _ => none
  | slot :: rest, n =>
    if matchName slot n then some 0
    else (findIdxA rest n).map (fun i => i + 1)

/-- `_.findIndex(this.queries, {name: n})`: the index of the first matching
slot, or `-1` when there is none. -/
def findIndexJS (qs : List (Option QueryEntry)) (n : String) : Int :=
  match findIdxA qs n with
  | none => -1
  | some i => (i : Int)

/-- JavaScript array read `arr[pos]` with a possibly negative `pos`:
`undefined` (`none`) below zero or past the end, the slot's content
otherwise (a hole is `undefined` as well). -/
def jsIndex (qs : List (Option QueryEntry)) (pos : Int) : Option QueryEntry :=
  if pos < 0 then none
  else ((qs.get? pos.toNat).bind id)

/-- JavaScript array element assignment `arr[i] = v` for `0 ≤ i`: in-range
indices are overwritten, `i = length` appends, larger indices pad with
holes first. -/
def jsSet (qs : List (Option QueryEntry)) (i : Nat) (v : Option QueryEntry) :
    List (Option QueryEntry) :=
  if i < qs.length then qs.set i v
  else qs ++ List.replicate (i - qs.length) none ++ [v]

/-- `delete arr[pos]`: an in-range slot becomes a hole (the length does not
change); out-of-range or negative positions leave the array unchanged. -/
def jsDelete (qs : List (Option QueryEntry)) (pos : Int) :
    List (Option QueryEntry) :=
  if pos < 0 then qs
  else if pos.toNat < qs.length then qs.set pos.toNat none
  else qs

/-- `GQLQuery.get(nameOrAlias)` (query.jsx lines 44-52): computes
`pos = _.findIndex(this.queries, {name: nameOrAlias})`, returns `null` when
`!pos` holds — which for a number is exactly `pos == 0` — and otherwise
returns `this.queries[pos]` (which is `undefined` when `pos` is `-1`).
`null` and `undefined` are both embedded as `none`. -/
def registryGet (qs : List (Option QueryEntry)) (nameOrAlias : String) :
    Option QueryEntry :=
  let pos := findIndexJS qs nameOrAlias
  if pos = 0 then none
  else jsIndex qs pos

/-- `GQLQuery.unset(nameOrAlias)` (query.jsx lines 113-121): computes the
same `pos`, returns untouched when `!pos` (that is `pos == 0`), and
otherwise performs `delete this.queries[pos]`. -/
def registryUnset (qs : List (Option QueryEntry)) (nameOrAlias : String) :
    List (Option QueryEntry) :=
  let pos := findIndexJS qs nameOrAlias
  if pos = 0 then qs
  else jsDelete qs pos

/-- The queries-array part of `GQLQuery.set` (query.jsx lines 96-103): `pos`
is the found index, or the array length when `findIndex` returned a negative
value (`if (pos < 0) pos = this.queries.length`), and the entry
`{name, query, args}` is assigned at `pos`. -/
def registrySetQueries (qs : List (Option QueryEntry)) (e : QueryEntry) :
    List (Option QueryEntry) :=
  let pos := findIndexJS qs e.name
  let posN := if pos < 0 then qs.length else pos.toNat
  jsSet qs posN (some e)

/-- The registered (non-hole) entry names of a queries array, in order. -/
def names (qs : List (Option QueryEntry)) : List String :=
  (qs.filterMap id).map (fun e => e.name)

/-- The registry invariant: no two registered entries share a name. -/
def uniqueNames (qs : List (Option QueryEntry)) : Prop :=
  (names qs).Nodup

instance (qs : List (Option QueryEntry)) : Decidable (uniqueNames qs) := by
  unfold uniqueNames
  infer_instance

/-!
## `exec`, the response handlers and the single-shot runners

`GQLQuery.__getQuery` (query.jsx lines 274-301) begins with
`if (!args || _.isEmpty(args))`.  The identifier `args` is not declared
anywhere in scope — the method's only parameters are `query, queries,
queryArgs, vars, variables`, and the entry's fields were never destructured —
so evaluating it throws `ReferenceError: args is not defined` in strict
(module) code before anything else in the body runs.  (`name`, read at line
283, is equally undeclared.)  Consequently `exec` (lines 132-164) throws on
the first non-hole element of `this.queries` that `Array.prototype.map`
visits; when the array has no non-hole element, no callback runs, the local
`queries` stays empty and `exec` returns `Promise.resolve(true)`.  The
composition, wrapping and `__send` code further down in `exec` is
unreachable, because the local `queries` can only be filled by a
`__getQuery` call that instead throws.
-/

/-- `GQLQuery.__getQuery` (query.jsx lines 274-301): its first statement
reads the undeclared identifier `args`, so every invocation throws a
`ReferenceError`. -/
def getQueryStep (_entry : QueryEntry) : Except JSError Unit :=
  .error (JSError.referenceError "args")

/-- The result of `exec`: either the promise resolved without a transport
call (`resolved v` is `Promise.resolve(v)`), or `__send` was reached and one
transport call issued.  The `sent` form is kept to express "a transport call
was made", but `execRegistry` below never produces it: the path to `__send`
is dead code in the source. -/
inductive ExecOutcome where
  | resolved : JSValue → ExecOutcome
  | sent : List (String × JSValue) → String → ExecOutcome
deriving DecidableEq, Repr

/-- `GQLQuery.exec(variables, headers)` (query.jsx lines 132-164):
`this.queries.map(query => this.__getQuery(...))` invokes `__getQuery` once
per non-hole slot (holes are skipped by `map`), and each such invocation
throws `ReferenceError: args is not defined`; with zero non-hole slots the
local `queries` array stays empty, `!queries.length` holds and `exec`
returns `Promise.resolve(true)` without contacting the transport. -/
def execRegistry (qs : List (Option QueryEntry))
    (_vars : List (String × JSValue)) : Except JSError ExecOutcome :=
  match (qs.filterMap id).foldlM (fun _ entry => getQueryStep entry) () with
  | .error e => .error e
  | .ok _ =>
    .ok (ExecOutcome.resolved (JSValue.bool true))

/-- One error element of a server response, as consumed by `__serverError`
(only its `message` property is read). -/
structure RespError where
  message : String
deriving DecidableEq, Repr

/-- One entry of `this.errors`: `{message, code}`. -/
structure GQLError where
  message : String
  code : String
deriving DecidableEq, Repr

/-- `GQLQuery.__serverError(errors)` (query.jsx lines 192-198):
`errors.pop()` takes the LAST element of the list (`undefined` when the list
is empty, in which case the following `err.message` read throws a
TypeError), stores `{message: err.message, code: "serverError"}` under the
`serverError` key of `this.errors`, and returns `[this.errors]`.  The
returned value is the updated error map (the source wraps it in a
one-element array). -/
def serverErrorM (errs : List (String × GQLError)) (errors : List RespError) :
    Except JSError (List (String × GQLError)) :=
  match errors.getLast? with
  | none => .error (JSError.typeError "message")
  | some err =>
    .ok (setKey errs "serverError"
      { message := err.message, code := "serverError" })

/-- The body of a transport response as `__handleResponse` (query.jsx lines
204-230) examines it: a falsy response, a response that is itself an array
of errors, or an object whose `data` property destructures into
`{data = Ø, error = Ø, errors}` (`errors` is absent or a list; an empty
present list is still truthy in JavaScript and is routed to
`__serverError`). -/
inductive Response where
  | empty : Response
  | arr : List RespError → Response
  | obj : List (String × JSValue) → List (String × JSValue) →
      Option (List RespError) → Response
deriving DecidableEq, Repr

/-- One callback invocation performed during response dispatch: the callback
token stored for a query name, and the payload value it receives. -/
inductive CbEvent where
  | errCb : Nat → JSValue → CbEvent
  | succCb : Nat → JSValue → CbEvent
deriving DecidableEq, Repr

/-- The instance fields of a `GQLQuery` that the response-dispatch methods
read and write: the queries array, the two callback tables (callbacks are
opaque tokens) and the accumulated `this.errors` map. -/
structure RegistryState where
  queries : List (Option QueryEntry)
  successCallbacks : List (String × Nat)
  errorCallbacks : List (String × Nat)
  errors : List (String × GQLError)
deriving DecidableEq, Repr

/-- `GQLQuery.__execErrors(errors)` (query.jsx lines 235-243): for every key
of the response's `error` object, in order, the registered error callback
for that key — when one exists — is called with that key's value. -/
def execErrorsM (st : RegistryState) (error : List (String × JSValue)) :
    List CbEvent :=
  error.filterMap (fun p =>
    match st.errorCallbacks.find? (fun q => q.1 = p.1) with
    | none => none
    | some q => some (CbEvent.errCb q.2 p.2))

/-- `GQLQuery.__execSuccess(data)` (query.jsx lines 248-256): for every key
of the response's `data` object, in order, the registered success callback
for that key — when one exists — is called with that key's value. -/
def execSuccessM (st : RegistryState) (data : List (String × JSValue)) :
    List CbEvent :=
  data.filterMap (fun p =>
    match st.successCallbacks.find? (fun q => q.1 = p.1) with
    | none => none
    | some q => some (CbEvent.succCb q.2 p.2))

/-- The value `__handleResponse` returns: `[this.errors]` on the server-error
paths, `[this.errors, data]` on the dispatch path. -/
inductive HandleResult where
  | errTuple : List (String × GQLError) → HandleResult
  | okTuple : List (String × GQLError) → List (String × JSValue) → HandleResult
deriving DecidableEq, Repr

/-- `GQLQuery.__handleResponse(res)` (query.jsx lines 204-230), with the
instance fields passed explicitly: a falsy `res` is turned into a synthetic
single-element error list for `__serverError`; an array `res` goes to
`__serverError` whole; otherwise `{data = Ø, error = Ø, errors}` is
destructured from `res.data`, a present `errors` list goes to
`__serverError`, and otherwise the error callbacks and then the success
callbacks are dispatched and `[this.errors, data]` is returned. -/
def handleResponseM (st : RegistryState) (res : Response) :
    Except JSError (RegistryState × HandleResult × List CbEvent) :=
  match res with
  | Response.empty =>
    match serverErrorM st.errors
        [{ message := "Something went wrong. Unable to process request!" }] with
    | .error e => .error e
    | .ok errs => .ok ({ st with errors := errs }, HandleResult.errTuple errs, [])
  | Response.arr errors =>
    match serverErrorM st.errors errors with
    | .error e => .error e
    | .ok errs => .ok ({ st with errors := errs }, HandleResult.errTuple errs, [])
  | Response.obj data error errors =>
    match errors with
    | some es =>
      match serverErrorM st.errors es with
      | .error e => .error e
      | .ok errs =>
        .ok ({ st with errors := errs }, HandleResult.errTuple errs, [])
    | none =>
      .ok (st, HandleResult.okTuple st.errors data,
        execErrorsM st error ++ execSuccessM st data)

/-!
## The transport client (`client.jsx`) and the single-shot runners

`GQLConfig(options)` copies the configured `url` and `headers` onto
`GQLClient.prototype`; every `new GQLClient()` instance reads them through
the prototype, so `client.url` / `client.headers` below are the process-wide
configuration carried in `ClientConfig`.  `GQLClientQuery` runs
`_.extend(client.headers, headers)` — underscore's `extend` MUTATES its
first argument, which is the shared prototype `headers` object — and then
invokes `Request({headers}).get(client.url, query)` with only the per-call
`headers` object. -/

/-- The process-wide configuration held on `GQLClient.prototype`: the
configured `url` (absent before `GQLConfig` ran) and the configured
`headers` object. -/
structure ClientConfig where
  url : Option String
  headers : List (String × JSValue)
deriving DecidableEq, Repr

/-- The single transport call `Request({headers}).get/post(url, body)`
issued by `GQLClientQuery` / `GQLClientMutation`: the headers object handed
to `Request`, the HTTP method (`true` for POST, `false` for GET), the url
and the body. -/
structure TransportCall where
  headers : List (String × JSValue)
  post : Bool
  url : String
  body : String
deriving DecidableEq, Repr

/-- `GQLClientQuery({headers, query})` (client.jsx lines 31-43): throws when
no `url` is configured; otherwise defaults `headers` to `\x7b\x7d`, runs
`_.extend(client.headers, headers)` — mutating the configured prototype
`headers` object in place — and calls `Request({headers}).get(client.url,
query)` with the (unmerged) per-call headers.  The result is the
configuration as it stands after the call together with the transport call
made. -/
def GQLClientQueryF (cfg : ClientConfig)
    (headers : Option (List (String × JSValue))) (query : String) :
    Except JSError (ClientConfig × TransportCall) :=
  match cfg.url with
  | none => .error (JSError.jsError "GQL is not configured!")
  | some url =>
    let headers := headers.getD []
    let protoHeaders := extendJS cfg.headers headers
    .ok ({ cfg with headers := protoHeaders },
      { headers := headers, post := false, url := url, body := query })

/-- `GQLClientMutation({headers, query})` (client.jsx lines 57-70): same as
`GQLClientQuery` but the transport call is `Request({headers}).post(...)`. -/
def GQLClientMutationF (cfg : ClientConfig)
    (headers : Option (List (String × JSValue))) (query : String) :
    Except JSError (ClientConfig × TransportCall) :=
  match cfg.url with
  | none => .error (JSError.jsError "GQL is not configured!")
  | some url =>
    let headers := headers.getD []
    let protoHeaders := extendJS cfg.headers headers
    .ok ({ cfg with headers := protoHeaders },
      { headers := headers, post := true, url := url, body := query })

/-- The `GQLQuery` constructor (query.jsx lines 9-16): after `this.reset()`
it evaluates `this.handleErrorResponse.bind(this)`.  No property named
`handleErrorResponse` exists on the instance or the prototype — the class
only defines `__handleErrorResponse` — so the property read yields
`undefined` and calling `.bind` on `undefined` throws a TypeError before the
constructor finishes.  `GQLMutation` inherits this constructor unchanged. -/
def newGQLQuery : Except JSError RegistryState :=
  .error (JSError.typeError "handleErrorResponse")

/-- The parameter object of `GQLQuery.set` and of the single-shot runners:
`{nameOrAlias, args, query, onSuccess, onError}` with callbacks as opaque
tokens. -/
structure SetParams where
  nameOrAlias : String
  args : List (String × ArgSpec)
  query : String
  onSuccess : Option Nat
  onError : Option Nat
deriving DecidableEq, Repr

/-- `GQLQuery.set(params)` (query.jsx lines 84-104): asserts that the name
and the query text are non-empty (underscore `isEmpty` on a string tests its
length), stores the supplied callbacks under the name, and writes the entry
`{name, query, args}` at its existing position or appends it
(`registrySetQueries`). -/
def registrySet (st : RegistryState) (p : SetParams) :
    Except JSError RegistryState :=
  if p.nameOrAlias.isEmpty then .error (JSError.jsError "Missing query name!")
  else if p.query.isEmpty then
    .error (JSError.jsError "Missing query definition!")
  else
    let st :=
      match p.onSuccess with
      | some cb => { st with successCallbacks := setKey st.successCallbacks p.nameOrAlias cb }
      | none => st
    let st :=
      match p.onError with
      | some cb => { st with errorCallbacks := setKey st.errorCallbacks p.nameOrAlias cb }
      | none => st
    .ok { st with
      queries := registrySetQueries st.queries
        { name := p.nameOrAlias, query := p.query, args := p.args } }

/-- What a single-shot runner produces when it settles. -/
inductive RunnerOutcome where
  | onErrorCalled : GQLError → RunnerOutcome
  | tuple : List (String × GQLError) → List (String × JSValue) → RunnerOutcome
deriving DecidableEq, Repr

/-- `gqlQuery(query, vars, headers)` (query.jsx lines 322-339): constructs a
fresh `GQLQuery` — whose constructor throws a TypeError (see `newGQLQuery`)
— then would register the entry, `exec`, and post-process the `[errors,
data]` tuple through `handleResponse`.  Everything after the construction is
dead: the thrown TypeError propagates to the caller. -/
def gqlQueryF (p : SetParams) (vars : List (String × JSValue)) :
    Except JSError RunnerOutcome :=
  match newGQLQuery with
  | .error e => .error e
  | .ok st0 =>
    match registrySet st0 p with
    | .error e => .error e
    | .ok st1 =>
      match execRegistry st1.queries vars with
      | .error e => .error e
      | .ok _ =>
        -- `handleResponse` destructures `[errors, data]` from the resolved
        -- value; `exec`'s only resolvable value is the sentinel `true`,
        -- which is not iterable.
        .error (JSError.typeError "not iterable")

/-- `gqlMutator(query, vars, headers)` (mutation.jsx lines 36-51): identical
shape to `gqlQuery` — `new GQLMutation()` runs the same inherited
constructor and throws the same TypeError. -/
def gqlMutatorF (p : SetParams) (vars : List (String × JSValue)) :
    Except JSError RunnerOutcome :=
  match newGQLQuery with
  | .error e => .error e
  | .ok st0 =>
    match registrySet st0 p with
    | .error e => .error e
    | .ok st1 =>
      match execRegistry st1.queries vars with
      | .error e => .error e
      | .ok _ => .error (JSError.typeError "not iterable")

/-!
## Theorems
-/

/-- C1: the claim says that an entry stored at position 0 is findable by
`get` and removable by `unset`.  The code does the opposite: both methods
guard with `if (!pos)`, and for the number `0` JavaScript `!pos` is true, so
an entry sitting at index 0 makes `get` return `null` and `unset` return
without deleting anything.  For every entry `e` at position 0 of the queries
array, `get(e.name)` is `null` and `unset(e.name)` leaves the array
untouched. -/
theorem C1_index_zero_bug (e : QueryEntry) (rest : List (Option QueryEntry)) :
    registryGet (some e :: rest) e.name = none ∧
    registryUnset (some e :: rest) e.name = some e :: rest := by
  constructor <;> simp [registryGet, registryUnset, findIndexJS, findIdxA,
    matchName]

/-- C2: the claim says `unsetSync` on a present field removes it and
notifies the subscribers.  In the code `unset` has no return value, so
`unsetSync`'s guard `if (!this.unset(name)) return;` always fires: on the
store with snapshot `{a: 1}` and one subscriber, `unsetSync("a")` removes
the field but performs zero notifications. -/
theorem C2_unsetSync_no_notify :
    storeUnsetSync
        { state := [("a", JSValue.num 1)], oldState := [],
          subscribers := [{ name := "f", tag := 0 }] } "a" =
      ({ state := [], oldState := [("a", JSValue.num 1)],
         subscribers := [{ name := "f", tag := 0 }] }, []) := by
  decide

/-- C3: the claim says `exec({id:"7"})` on the registry holding the
`getUser` entry composes a document declaring `$getUser_id: Int` and sends
variables `{getUser_id: 7}`.  In the code `__getQuery` reads the undeclared
identifiers `args` and `name`, so `exec` throws
`ReferenceError: args is not defined` instead of composing anything. -/
theorem C3_exec_throws_reference_error :
    execRegistry
        [some { name := "getUser", query := "getUser(id:$id)",
                args := [("id", { type := "Int", value := JSValue.num 1 })] }]
        [("id", JSValue.str "7")] =
      Except.error (JSError.referenceError "args") := rfl

/-- C4: the claim says the configured headers object is unchanged by a
transport call and that the transport receives the instance headers merged
with the per-call headers.  In the code `_.extend(client.headers, headers)`
mutates the shared configured headers object in place, and the transport is
then invoked with only the per-call `headers` object: with configuration
headers `{a: 1}` and per-call headers `{b: 2}`, after the call the
configuration holds `{a: 1, b: 2}` (changed), while the transport call
carries only `{b: 2}` — the configured key `a` is absent from it. -/
theorem C4_headers_mutated_and_dropped :
    GQLClientQueryF { url := some "https://api", headers := [("a", JSValue.num 1)] }
        (some [("b", JSValue.num 2)]) "q" =
      Except.ok
        ({ url := some "https://api",
           headers := [("a", JSValue.num 1), ("b", JSValue.num 2)] },
         { headers := [("b", JSValue.num 2)], post := false,
           url := "https://api", body := "q" }) ∧
    ([("a", JSValue.num 1), ("b", JSValue.num 2)] ≠ [("a", JSValue.num 1)]) ∧
    hasKey [("b", JSValue.num 2)] "a" = false :=
  ⟨rfl, by decide, rfl⟩

/-- C5: the claim says a single-shot run whose resolved error map carries a
`serverError` key (or the entry's name) invokes the entry's `onError` with
that error.  In the code both runners begin with `new GQLQuery()` /
`new GQLMutation()`, whose constructor evaluates
`this.handleErrorResponse.bind(this)` on a property that does not exist, so
every invocation of `gqlQuery` and `gqlMutator` throws a TypeError at
construction time; no run ever resolves and no `onError` is ever invoked. -/
theorem C5_runners_throw_at_construction (p : SetParams)
    (vars : List (String × JSValue)) :
    gqlQueryF p vars = Except.error (JSError.typeError "handleErrorResponse") ∧
    gqlMutatorF p vars = Except.error (JSError.typeError "handleErrorResponse") :=
  ⟨rfl, rfl⟩

/-- C6: a response whose body carries a present `errors` list with last
element `e` is routed by `__handleResponse` to `__serverError`, which builds
the error map entry `serverError = {message: e.message, code: "serverError"}`
from that LAST element and returns `[this.errors]` with no callback
dispatched.  This is the resolution value of the response path of `exec`. -/
theorem C6_serverError_from_last (st : RegistryState)
    (data error : List (String × JSValue)) (es : List RespError)
    (e : RespError) (h : es.getLast? = some e) :
    handleResponseM st (Response.obj data error (some es)) =
      Except.ok
        ({ st with
            errors := setKey st.errors "serverError"
              { message := e.message, code := "serverError" } },
         HandleResult.errTuple
           (setKey st.errors "serverError"
             { message := e.message, code := "serverError" }),
         []) := by
  simp [handleResponseM, serverErrorM, h]

/-- C6 witness: the spec scenario — response body
`{errors: [{message:"boom"}, {message:"final"}]}` on a fresh registry yields
exactly the error map `{serverError: {message:"final", code:"serverError"}}`. -/
theorem C6_serverError_from_last_witness :
    ([⟨"boom"⟩, ⟨"final"⟩] : List RespError).getLast? = some ⟨"final"⟩ ∧
    handleResponseM (⟨[], [], [], []⟩ : RegistryState)
        (Response.obj [] [] (some [⟨"boom"⟩, ⟨"final"⟩])) =
      Except.ok
        ((⟨[], [], [], [("serverError", ⟨"final", "serverError"⟩)]⟩ : RegistryState),
         HandleResult.errTuple [("serverError", ⟨"final", "serverError"⟩)],
         []) :=
  ⟨rfl, C6_serverError_from_last ⟨[], [], [], []⟩ [] [] [⟨"boom"⟩, ⟨"final"⟩] ⟨"final"⟩ rfl⟩

/-- C7: on a registry with zero registered entries (no non-hole slot),
`Array.prototype.map` invokes `__getQuery` zero times, the local `queries`
array stays empty and `exec` returns `Promise.resolve(true)` — the
resolution with the sentinel `true`, with no transport call made (the
outcome is `resolved`, not `sent`). -/
theorem C7_exec_empty_resolves (qs : List (Option QueryEntry))
    (vars : List (String × JSValue)) (h : qs.filterMap id = []) :
    execRegistry qs vars = Except.ok (ExecOutcome.resolved (JSValue.bool true)) := by
  rw [execRegistry, h]
  rfl

/-- C7 witness: the fresh empty registry. -/
theorem C7_exec_empty_resolves_witness :
    ([] : List (Option QueryEntry)).filterMap id = [] ∧
    execRegistry [] [] = Except.ok (ExecOutcome.resolved (JSValue.bool true)) :=
  ⟨rfl, C7_exec_empty_resolves [] [] rfl⟩

/-- C9: subscribing two distinct function values that share a (non-empty)
function name, on a store with no subscriber of that name yet, leaves
exactly one active subscriber under that name — the second `subscribe` finds
the first one by name and does not push.  A non-function argument or an
anonymous function makes `subscribe` return `false` with the subscriber list
unchanged. -/
theorem C9_subscribe_dedup_by_name (s : StoreState) (f g : FnVal) (_hfg : f ≠ g)
    (hname : f.name = g.name) (hn : f.name ≠ "")
    (h0 : countNamed s.subscribers f.name = 0) :
    countNamed ((storeSubscribe (storeSubscribe s (CallbackArg.fn f)).1
        (CallbackArg.fn g)).1).subscribers f.name = 1 ∧
    (∀ v : JSValue,
      storeSubscribe s (CallbackArg.notFn v) = (s, JSValue.bool false)) ∧
    (∀ t : Nat,
      storeSubscribe s (CallbackArg.fn { name := "", tag := t }) =
        (s, JSValue.bool false)) := by
  have hgn : g.name ≠ "" := hname ▸ hn
  have hfil : s.subscribers.filter (fun cb => cb.name = f.name) = [] := by
    unfold countNamed at h0
    exact List.length_eq_zero.mp h0
  refine ⟨?_, fun v => rfl, fun t => by simp [storeSubscribe]⟩
  have h1 : (storeSubscribe s (CallbackArg.fn f)).1 =
      { s with subscribers := s.subscribers ++ [f] } := by
    simp [storeSubscribe, hn, hfil]
  rw [h1]
  have hex : (s.subscribers ++ [f]).filter (fun cb => cb.name = g.name) = [f] := by
    rw [List.filter_append, ← hname, hfil]
    simp
  have h2 : (storeSubscribe { s with subscribers := s.subscribers ++ [f] }
      (CallbackArg.fn g)).1 = { s with subscribers := s.subscribers ++ [f] } := by
    simp [storeSubscribe, hgn, hex]
  rw [h2]
  unfold countNamed
  rw [List.filter_append, hfil]
  simp

/-- C9 witness: a fresh store, and the callbacks `cb` (tag 0) and `cb`
(tag 1). -/
theorem C9_subscribe_dedup_by_name_witness :
    (({ name := "cb", tag := 0 } : FnVal) ≠ { name := "cb", tag := 1 }) ∧
    countNamed ((storeSubscribe (storeSubscribe (⟨[], [], []⟩ : StoreState)
        (CallbackArg.fn { name := "cb", tag := 0 })).1
        (CallbackArg.fn { name := "cb", tag := 1 })).1).subscribers "cb" = 1 :=
  ⟨by decide,
    (C9_subscribe_dedup_by_name ⟨[], [], []⟩ { name := "cb", tag := 0 }
      { name := "cb", tag := 1 } (by decide) rfl (by decide) rfl).1⟩

/-- C10: `unsubscribe` with a named function value returns `true` whether or
not a subscriber with that name exists; when none exists the subscriber list
is unchanged; afterwards no subscriber with that name remains (every one of
them was removed); and a non-function or anonymous-function argument makes
it return `false` with the list unchanged. -/
theorem C10_unsubscribe_semantics (s : StoreState) (f : FnVal)
    (hn : f.name ≠ "") :
    (storeUnsubscribe s (CallbackArg.fn f)).2 = JSValue.bool true ∧
    (countNamed s.subscribers f.name = 0 →
      (storeUnsubscribe s (CallbackArg.fn f)).1 = s) ∧
    countNamed (storeUnsubscribe s (CallbackArg.fn f)).1.subscribers f.name = 0 ∧
    (∀ v : JSValue,
      storeUnsubscribe s (CallbackArg.notFn v) = (s, JSValue.bool false)) ∧
    (∀ t : Nat,
      storeUnsubscribe s (CallbackArg.fn { name := "", tag := t }) =
        (s, JSValue.bool false)) := by
  refine ⟨by simp [storeUnsubscribe, hn], ?_, ?_, fun v => rfl,
    fun t => by simp [storeUnsubscribe]⟩
  · intro h0
    have hfil : s.subscribers.filter (fun cb => cb.name = f.name) = [] := by
      unfold countNamed at h0
      exact List.length_eq_zero.mp h0
    have hall : ∀ cb ∈ s.subscribers, cb.name ≠ f.name := by
      intro cb hcb
      have := List.filter_eq_nil_iff.mp hfil cb hcb
      simpa using this
    have hkeep : s.subscribers.filter (fun cb => !decide (cb.name = f.name)) =
        s.subscribers :=
      List.filter_eq_self.mpr (fun cb hcb => by simp [hall cb hcb])
    simp [storeUnsubscribe, hn, hkeep]
  · have hsub : (storeUnsubscribe s (CallbackArg.fn f)).1.subscribers =
        s.subscribers.filter (fun cb => !decide (cb.name = f.name)) := by
      simp [storeUnsubscribe, hn]
    unfold countNamed
    rw [hsub, List.length_eq_zero, List.filter_eq_nil_iff]
    intro cb hcb
    have := List.mem_filter.mp hcb
    simpa using this.2

/-- C10 witness: a store with subscribers named `cb`, `x`, `cb`;
unsubscribing a named function `cb` (with a fresh tag) returns `true` and
removes both subscribers named `cb`. -/
theorem C10_unsubscribe_semantics_witness :
    (storeUnsubscribe
        (⟨[], [], [⟨"cb", 0⟩, ⟨"x", 1⟩, ⟨"cb", 2⟩]⟩ : StoreState)
        (CallbackArg.fn { name := "cb", tag := 9 })).2 = JSValue.bool true ∧
    countNamed (storeUnsubscribe
        (⟨[], [], [⟨"cb", 0⟩, ⟨"x", 1⟩, ⟨"cb", 2⟩]⟩ : StoreState)
        (CallbackArg.fn { name := "cb", tag := 9 })).1.subscribers "cb" = 0 :=
  ⟨(C10_unsubscribe_semantics ⟨[], [], [⟨"cb", 0⟩, ⟨"x", 1⟩, ⟨"cb", 2⟩]⟩
      { name := "cb", tag := 9 } (by decide)).1,
   (C10_unsubscribe_semantics ⟨[], [], [⟨"cb", 0⟩, ⟨"x", 1⟩, ⟨"cb", 2⟩]⟩
      { name := "cb", tag := 9 } (by decide)).2.2.1⟩

/-- Unfolding lemma: no registered names in the empty array. -/
theorem names_nil : names [] = [] := rfl

/-- Unfolding lemma: a hole contributes no registered name. -/
theorem names_cons_none (rest : List (Option QueryEntry)) :
    names (none :: rest) = names rest := rfl

/-- Unfolding lemma: an entry contributes its name. -/
theorem names_cons_some (e : QueryEntry) (rest : List (Option QueryEntry)) :
    names (some e :: rest) = e.name :: names rest := rfl

/-- The registered names of a concatenation. -/
theorem names_append (a b : List (Option QueryEntry)) :
    names (a ++ b) = names a ++ names b := by
  unfold names
  rw [List.filterMap_append, List.map_append]

/-- A registered entry's name is among the registered names. -/
theorem name_mem_names (qs : List (Option QueryEntry)) (e : QueryEntry)
    (h : some e ∈ qs) : e.name ∈ names qs := by
  unfold names
  exact List.mem_map.mpr ⟨e, List.mem_filterMap.mpr ⟨some e, h, rfl⟩, rfl⟩

/-- `findIdxA` finds no index exactly when the name is not registered. -/
theorem findIdxA_eq_none_iff (qs : List (Option QueryEntry)) (n : String) :
    findIdxA qs n = none ↔ n ∉ names qs := by
  induction qs with
  | nil => simp [findIdxA, names_nil]
  | cons slot rest ih =>
    cases slot with
    | none =>
      rw [names_cons_none, ← ih]
      simp [findIdxA, matchName, Option.map_eq_none']
    | some e =>
      by_cases he : e.name = n
      · subst he
        simp [findIdxA, matchName, names_cons_some]
      · have he' : n ≠ e.name := fun h => he h.symm
        simp [findIdxA, matchName, he, he', names_cons_some,
          Option.map_eq_none', ih]

/-- A found index points at an entry carrying the searched name. -/
theorem findIdxA_some_spec (qs : List (Option QueryEntry)) (n : String) :
    ∀ i, findIdxA qs n = some i →
      ∃ e, qs.get? i = some (some e) ∧ e.name = n := by
  induction qs with
  | nil => intro i h; simp [findIdxA] at h
  | cons slot rest ih =>
    intro i h
    by_cases hm : matchName slot n
    · rw [findIdxA, if_pos hm] at h
      cases slot with
      | none => simp [matchName] at hm
      | some e =>
        have hi : i = 0 := by
          have := h
          injection this with h0
          exact h0.symm
        subst hi
        refine ⟨e, rfl, ?_⟩
        simpa [matchName] using hm
    · rw [findIdxA, if_neg hm] at h
      cases hr : findIdxA rest n with
      | none => rw [hr] at h; simp at h
      | some j =>
        rw [hr] at h
        simp only [Option.map_some', Option.some.injEq] at h
        obtain ⟨e, hget, hname⟩ := ih j hr
        subst h
        exact ⟨e, by simpa using hget, hname⟩

/-- On an array with pairwise-distinct registered names, the position of an
entry carrying the searched name is the position `findIdxA` finds. -/
theorem findIdxA_of_uniq (qs : List (Option QueryEntry)) (n : String) :
    ∀ i old, uniqueNames qs → qs.get? i = some (some old) → old.name = n →
      findIdxA qs n = some i := by
  induction qs with
  | nil => intro i old _ h _; simp at h
  | cons slot rest ih =>
    intro i old hu hget hname
    cases i with
    | zero =>
      have hslot : slot = some old := by simpa using hget
      subst hslot
      rw [findIdxA, if_pos (by simpa [matchName] using hname)]
    | succ j =>
      rw [List.get?_cons_succ] at hget
      cases slot with
      | none =>
        have hu' : uniqueNames rest := by
          rwa [uniqueNames, names_cons_none] at hu
        rw [findIdxA]
        rw [if_neg (by simp [matchName])]
        rw [ih j old hu' hget hname]
        rfl
      | some e =>
        have hu2 : e.name ∉ names rest ∧ uniqueNames rest := by
          rw [uniqueNames, names_cons_some] at hu
          exact List.nodup_cons.mp hu
        have hne : ¬(matchName (some e) n = true) := by
          simp only [matchName, decide_eq_true_eq]
          intro he
          have hmem : some old ∈ rest := List.get?_mem hget
          have : old.name ∈ names rest := name_mem_names rest old hmem
          rw [hname, ← he] at this
          exact hu2.1 this
        rw [findIdxA, if_neg hne]
        rw [ih j old hu2.2 hget hname]
        rfl

/-- Replacing the entry at a position by one with the same name leaves the
list of registered names unchanged. -/
theorem names_set_same (qs : List (Option QueryEntry)) (e : QueryEntry) :
    ∀ i old, qs.get? i = some (some old) → old.name = e.name →
      names (qs.set i (some e)) = names qs := by
  induction qs with
  | nil => intro i old h _; simp at h
  | cons slot rest ih =>
    intro i old hget hname
    cases i with
    | zero =>
      have hslot : slot = some old := by simpa using hget
      subst hslot
      show names (some e :: rest) = names (some old :: rest)
      rw [names_cons_some, names_cons_some, hname]
    | succ j =>
      rw [List.get?_cons_succ] at hget
      cases slot with
      | none =>
        show names (none :: rest.set j (some e)) = names (none :: rest)
        rw [names_cons_none, names_cons_none]
        exact ih j old hget hname
      | some a =>
        show names (some a :: rest.set j (some e)) = names (some a :: rest)
        rw [names_cons_some, names_cons_some]
        rw [ih j old hget hname]

/-- When an entry with the assigned name exists, `set`'s queries-array step
overwrites exactly the slot at the found position. -/
theorem registrySetQueries_found (qs : List (Option QueryEntry))
    (e : QueryEntry) (i : Nat) (old : QueryEntry) (hu : uniqueNames qs)
    (hget : qs.get? i = some (some old)) (hname : old.name = e.name) :
    registrySetQueries qs e = qs.set i (some e) := by
  have hidx : findIdxA qs e.name = some i :=
    findIdxA_of_uniq qs e.name i old hu hget hname
  have hlt : i < qs.length := by
    rcases List.get?_eq_some.mp hget with ⟨h, _⟩
    exact h
  have hnn : ¬((i : Int) < 0) := not_lt.mpr (Int.natCast_nonneg i)
  unfold registrySetQueries findIndexJS
  rw [hidx]
  simp [jsSet, hlt, hnn]

/-- When no entry with the assigned name exists, `set`'s queries-array step
appends the new entry. -/
theorem registrySetQueries_notFound (qs : List (Option QueryEntry))
    (e : QueryEntry) (h : e.name ∉ names qs) :
    registrySetQueries qs e = qs ++ [some e] := by
  have hidx : findIdxA qs e.name = none := (findIdxA_eq_none_iff qs e.name).mpr h
  unfold registrySetQueries findIndexJS
  rw [hidx]
  simp [jsSet]

/-- `set`'s queries-array step preserves name uniqueness. -/
theorem setQueries_uniq (qs : List (Option QueryEntry)) (e : QueryEntry)
    (hu : uniqueNames qs) : uniqueNames (registrySetQueries qs e) := by
  cases hidx : findIdxA qs e.name with
  | none =>
    have h : e.name ∉ names qs := (findIdxA_eq_none_iff qs e.name).mp hidx
    rw [registrySetQueries_notFound qs e h]
    unfold uniqueNames
    rw [names_append, List.nodup_append]
    refine ⟨hu, List.nodup_singleton e.name, ?_⟩
    rwa [names_cons_some, names_nil, List.disjoint_singleton]
  | some i =>
    obtain ⟨old, hget, hname⟩ := findIdxA_some_spec qs e.name i hidx
    rw [registrySetQueries_found qs e i old hu hget hname]
    unfold uniqueNames
    rw [names_set_same qs e i old hget hname]
    exact hu

/-- Any sequence of `set` steps starting from a uniquely-named array keeps
names unique. -/
theorem foldl_setQueries_uniq (es : List QueryEntry) :
    ∀ acc, uniqueNames acc → uniqueNames (es.foldl registrySetQueries acc) := by
  induction es with
  | nil => intro acc h; simpa using h
  | cons e rest ih => intro acc h; exact ih _ (setQueries_uniq acc e h)

/-- C8: on a registry with uniquely-named entries, `set` with a name that is
already registered at position `i` (position 0 included: the lookup here uses
`pos < 0`, not `!pos`) replaces the entry at `i` and keeps the array length;
with an unregistered name it appends; name uniqueness is preserved, so any
sequence of `set` calls from an empty registry leaves at most one entry per
name; and the full `set` method (`registrySet`) performs exactly this
queries-array step whenever its two assertions pass. -/
theorem C8_set_replace_or_append (qs : List (Option QueryEntry))
    (e : QueryEntry) (i : Nat) (old : QueryEntry) (hu : uniqueNames qs) :
    (qs.get? i = some (some old) → old.name = e.name →
      (registrySetQueries qs e).length = qs.length ∧
      (registrySetQueries qs e).get? i = some (some e)) ∧
    (e.name ∉ names qs → registrySetQueries qs e = qs ++ [some e]) ∧
    uniqueNames (registrySetQueries qs e) ∧
    (∀ es : List QueryEntry, uniqueNames (es.foldl registrySetQueries [])) ∧
    (∀ st : RegistryState, ∀ p : SetParams, p.nameOrAlias.isEmpty = false →
      p.query.isEmpty = false →
      ∃ st2, registrySet st p = Except.ok st2 ∧
        st2.queries = registrySetQueries st.queries
          { name := p.nameOrAlias, query := p.query, args := p.args }) := by
  refine ⟨?_, registrySetQueries_notFound qs e, setQueries_uniq qs e hu,
    fun es => foldl_setQueries_uniq es [] (by simp [uniqueNames, names_nil]),
    ?_⟩
  · intro hget hname
    rw [registrySetQueries_found qs e i old hu hget hname]
    refine ⟨List.length_set qs i (some e), ?_⟩
    rw [List.get?_set_eq, hget]
    rfl
  · intro st p h1 h2
    simp only [registrySet, h1, h2, Bool.false_eq_true, if_false]
    cases p.onSuccess <;> cases p.onError <;> exact ⟨_, rfl, rfl⟩

/-- C8 witness: re-registering the name `a`, whose entry sits at position 0
of a one-entry registry, replaces it in place. -/
theorem C8_set_replace_or_append_witness :
    uniqueNames [some { name := "a", query := "q1", args := [] }] ∧
    (registrySetQueries [some { name := "a", query := "q1", args := [] }]
        { name := "a", query := "q2", args := [] }).length = 1 ∧
    (registrySetQueries [some { name := "a", query := "q1", args := [] }]
        { name := "a", query := "q2", args := [] }).get? 0 =
      some (some { name := "a", query := "q2", args := [] }) :=
  ⟨by decide,
    ((C8_set_replace_or_append [some ⟨"a", "q1", []⟩] ⟨"a", "q2", []⟩ 0
        ⟨"a", "q1", []⟩ (by decide)).1 rfl rfl).1,
    ((C8_set_replace_or_append [some ⟨"a", "q1", []⟩] ⟨"a", "q2", []⟩ 0
        ⟨"a", "q1", []⟩ (by decide)).1 rfl rfl).2⟩
